import Mathlib

set_option linter.unusedVariables false
set_option maxRecDepth 4000

/-!
Shallow embedding of two source files of the DatumSystems/linux repository:

* `drivers/hwmon/mcp9902.c` — MCP9902 temperature sensor driver
  (temperature encode/decode, sysfs show/store, shared SPI/I2C bus
  release discipline)
* `net/dsa/master.c` — DSA master device (ethtool string prefixing,
  ioctl interception, tag protocol switching, pvlan / raw register /
  clock-short sysfs control surface)

Machine integers are modelled as `Nat`/`Int` with explicit `% 2^w`
where a C conversion truncates.  C `/` on `int` truncates toward zero
and is modelled by `Int.div`; conversion of an `int` to `u8` is
modelled by `Int.emod _ 256`.
-/

/-! ### mcp9902.c : conversions (lines 80-89) -/

/-- Decode a raw temperature register byte plus a fraction register byte
into milli-degrees C, as `temp_from_reg` in mcp9902.c line 80-84:
`(((val - 64) * 1000) + (((fraction & 0xE0) >> 5) * 125))`.
Both call sites pass register bytes, so `fraction` is kept as `Nat`. -/
def temp_from_reg (val : Int) (fraction : Nat) : Int :=
  (val - 64) * 1000 + (((fraction &&& 0xE0) >>> 5 : Nat) : Int) * 125

/-- Encode a milli-degree value into a register byte, as `temp_to_reg`
in mcp9902.c line 86-89: `(val + 64) / 1000` with C truncating
division (`Int.tdiv` rounds toward zero like C99 `/`). -/
def temp_to_reg (val : Int) : Int :=
  Int.tdiv (val + 64) 1000

/-- Register cache indices, as `enum temp_index` in mcp9902.c. -/
inductive TempIndex
  | t_input1
  | t_input1_fraction
  | t_input2
  | t_input2_fraction
  | t_low1
  | t_high1
  | t_crit1
  | t_low2
  | t_high2
  | t_crit2
  | t_hyst
deriving DecidableEq

/-- The byte stored into `data->temp[attr->index]` by `temp_store`
(mcp9902.c line 222): the `int` result of `temp_to_reg` converted to
`u8`, i.e. reduced mod 256. -/
def temp_store_byte (val : Int) : Nat :=
  (Int.emod (temp_to_reg val) 256).toNat

/-- Value displayed by `temp_show` (mcp9902.c lines 186-206): the cached
byte at the attribute index decoded by `temp_from_reg`, with the
fraction byte taken from the matching fraction register for the two
input channels and 0 for every other index.  `data` is the register
cache `data->temp` (bytes). -/
def temp_show (data : TempIndex → Nat) (idx : TempIndex) : Int :=
  match idx with
  | TempIndex.t_input1 =>
      temp_from_reg (data TempIndex.t_input1) (data TempIndex.t_input1_fraction)
  | TempIndex.t_input2 =>
      temp_from_reg (data TempIndex.t_input2) (data TempIndex.t_input2_fraction)
  | i => temp_from_reg (data i) 0

/-- Reading back a threshold just written with value `val`: `temp_store`
stores `temp_store_byte val` and `temp_show` decodes a threshold index
with fraction 0 (thresholds have no fraction register). -/
def threshold_read_back (val : Int) : Int :=
  temp_from_reg (temp_store_byte val) 0

/-! ### mcp9902.c : bus arbiter release (lines 68-74) -/

/-- Observable events of the bus-release path. -/
inductive BusEvent
  | usleep_range (lo hi : Nat)
  | msleep (ms : Nat)
  | mutex_unlock
deriving DecidableEq

/-- Event trace of `spi_unlock` (mcp9902.c lines 68-74): skip the
100-200 us jitter when the device is runtime-suspended, then always
sleep 1 ms, then unlock the shared mutex. -/
def spi_unlock (suspended : Bool) : List BusEvent :=
  (if suspended then [] else [BusEvent.usleep_range 100 200])
    ++ [BusEvent.msleep 1, BusEvent.mutex_unlock]

/-! ### master.c : sscanf model

The stores in master.c parse their input with `sscanf`.  `sscanf` is C
library code, not part of this repository; it is modelled here
following its C semantics on the formats used: a `%d` / `%x`
conversion skips leading white space and consumes a maximal digit
run, a literal `:` must match exactly, and the return value is the
number of conversions completed before the first failure.  (The
optional `0x` prefix and locale details of C `%x` are not used by any
input considered here and are left out.) -/

def isSpaceCh (c : Char) : Bool :=
  c = ' ' || c = '\t' || c = '\n'

def isHexCh (c : Char) : Bool :=
  c.isDigit || (97 ≤ c.toNat && c.toNat ≤ 102) || (65 ≤ c.toNat && c.toNat ≤ 70)

def hexDigitVal (c : Char) : Nat :=
  if c.toNat ≤ 57 then c.toNat - 48
  else if c.toNat ≤ 70 then c.toNat - 55
  else c.toNat - 87

def decValue (ds : List Char) : Nat :=
  ds.foldl (fun a c => a * 10 + (c.toNat - 48)) 0

def hexValue (ds : List Char) : Nat :=
  ds.foldl (fun a c => a * 16 + hexDigitVal c) 0

/-- One `%d` conversion: optional sign, maximal digit run. -/
def scanDec (cs : List Char) : Option (Int × List Char) :=
  let cs1 := cs.dropWhile isSpaceCh
  match cs1 with
  | '-' :: rest =>
      if (rest.takeWhile Char.isDigit) = [] then none
      else some (-(decValue (rest.takeWhile Char.isDigit) : Int),
                 rest.dropWhile Char.isDigit)
  | '+' :: rest =>
      if (rest.takeWhile Char.isDigit) = [] then none
      else some ((decValue (rest.takeWhile Char.isDigit) : Int),
                 rest.dropWhile Char.isDigit)
  | _ =>
      if (cs1.takeWhile Char.isDigit) = [] then none
      else some ((decValue (cs1.takeWhile Char.isDigit) : Int),
                 cs1.dropWhile Char.isDigit)

/-- One `%x` conversion: maximal hex digit run. -/
def scanHex (cs : List Char) : Option (Nat × List Char) :=
  let cs1 := cs.dropWhile isSpaceCh
  if (cs1.takeWhile isHexCh) = [] then none
  else some (hexValue (cs1.takeWhile isHexCh), cs1.dropWhile isHexCh)

/-- `sscanf(buf, "%d:%hx", &index, &value)` (pvlan_store, master.c line
401): returns (number of conversions, index, value), the `%hx` result
truncated to `u16`. -/
def sscanf_pvlan (cs : List Char) : Nat × Int × Nat :=
  match scanDec cs with
  | none => (0, 0, 0)
  | some (idx, r1) =>
    match r1 with
    | ':' :: r2 =>
      match scanHex r2 with
      | none => (1, idx, 0)
      | some (v, _) => (2, idx, v % 65536)
    | _ => (1, idx, 0)

/-- `sscanf(buf, "%hhx:%hhx:%hhx", &page, &reg, &size)` (rdreg_store,
master.c line 467): each `%hhx` result truncated to `u8`. -/
def sscanf_hhx3 (cs : List Char) : Nat × Nat × Nat × Nat :=
  match scanHex cs with
  | none => (0, 0, 0, 0)
  | some (a, r1) =>
    match r1 with
    | ':' :: r2 =>
      match scanHex r2 with
      | none => (1, a % 256, 0, 0)
      | some (b, r3) =>
        match r3 with
        | ':' :: r4 =>
          match scanHex r4 with
          | none => (2, a % 256, b % 256, 0)
          | some (c, _) => (3, a % 256, b % 256, c % 256)
        | _ => (2, a % 256, b % 256, 0)
    | _ => (1, a % 256, 0, 0)

/-- `sscanf(buf, "%hhx:%hhx:%hhx:%llx", &page, &reg, &size, &value)`
(wrreg_store, master.c line 498): three `u8` fields and one `u64`
field. -/
def sscanf_hhx3_llx (cs : List Char) : Nat × Nat × Nat × Nat × Nat :=
  match scanHex cs with
  | none => (0, 0, 0, 0, 0)
  | some (a, r1) =>
    match r1 with
    | ':' :: r2 =>
      match scanHex r2 with
      | none => (1, a % 256, 0, 0, 0)
      | some (b, r3) =>
        match r3 with
        | ':' :: r4 =>
          match scanHex r4 with
          | none => (2, a % 256, b % 256, 0, 0)
          | some (c, r5) =>
            match r5 with
            | ':' :: r6 =>
              match scanHex r6 with
              | none => (3, a % 256, b % 256, c % 256, 0)
              | some (v, _) => (4, a % 256, b % 256, c % 256, v % 18446744073709551616)
            | _ => (3, a % 256, b % 256, c % 256, 0)
        | _ => (2, a % 256, b % 256, 0, 0)
    | _ => (1, a % 256, 0, 0, 0)

/-- `sscanf(buf, "%d", &mutex_enable)` (spi_mutex_store, master.c line
539). -/
def sscanf_d (cs : List Char) : Nat × Int :=
  match scanDec cs with
  | none => (0, 0)
  | some (v, _) => (1, v)

/-! ### master.c : errno constants (negative values are returned) -/

def ENOENT : Int := 2
def EIO_CODE : Int := 5
def EBUSY : Int := 16
def EINVAL : Int := 22
def EOPNOTSUPP : Int := 95

/-! ### master.c : pvlan control surface (lines 388-418) -/

/-- A port of the switch tree as seen by the pvlan store loop:
its index, whether `dp->type != DSA_PORT_TYPE_UNUSED`, and whether
`dp->ds->ops->port_get_pvlan` is non-NULL. -/
structure DsaPort where
  index : Int
  used : Bool
  has_get_pvlan : Bool

/-- The `list_for_each_entry` search loop of `pvlan_store` (master.c
lines 406-414): for the first used port whose index matches, fail with
-EOPNOTSUPP when the driver lacks `port_get_pvlan`, otherwise invoke
`port_change_pvlan(ds, index, value)` (recorded as a call) and return
success; -EINVAL when no port matches.  The second component records
the setter invocations. -/
def pvlan_find_and_set (ports : List DsaPort) (index : Int) (value : Nat) :
    Except Int Unit × List (Int × Nat) :=
  match ports with
  | [] => (Except.error (-EINVAL), [])
  | dp :: rest =>
    if dp.index = index ∧ dp.used = true then
      if dp.has_get_pvlan = true then (Except.ok (), [(index, value)])
      else (Except.error (-EOPNOTSUPP), [])
    else pvlan_find_and_set rest index value

/-- `pvlan_store` (master.c lines 388-418): parse `"%d:%hx"`, -EINVAL
unless exactly 2 conversions succeed, then search the tree ports. -/
def pvlan_store (ports : List DsaPort) (buf : List Char) :
    Except Int Unit × List (Int × Nat) :=
  match sscanf_pvlan buf with
  | (cnt, index, value) =>
    if cnt ≠ 2 then (Except.error (-EINVAL), [])
    else pvlan_find_and_set ports index value

/-! ### master.c : raw register debug surface (lines 421-508) -/

/-- Hex digit characters as produced by printf `%x` (lowercase). -/
def hexDigitChar (n : Nat) : Char :=
  Char.ofNat (if n < 10 then 48 + n else 87 + n)

/-- Fuel-bounded most-significant-first hex rendering loop. -/
def hexLoop : Nat → Nat → List Char
  | 0, _ => []
  | _ + 1, 0 => []
  | fuel + 1, n + 1 => hexLoop fuel ((n + 1) / 16) ++ [hexDigitChar ((n + 1) % 16)]

/-- Model of sprintf `%x` / `%hhx` / `%llx`: minimal-width lowercase
hex with no leading zeros, and a single `0` for the value 0 (the
default precision of printf is 1).  `n / 16 < n` for `n ≥ 1`, so `n`
itself is enough fuel. -/
def sprintf_hex (n : Nat) : List Char :=
  if n = 0 then ['0'] else hexLoop n n

/-- `rdreg_show` (master.c lines 421-453).  The driver response
`switch_get_reg` is `none` when the call fails (-EIO_CODE) and otherwise
yields the size byte and the `u64` value.  The value is cast to `u8`
/ `u16` / `u32` for sizes 1/2/4 and printed with `%llx` uncast for
sizes 6 and 8; any other size yields -EIO. -/
def rdreg_show (switch_get_reg : Option (Nat × Nat)) : Except Int (List Char) :=
  match switch_get_reg with
  | none => Except.error (-EIO_CODE)
  | some (size, value) =>
    if size = 1 then Except.ok (sprintf_hex (value % 256) ++ ['\n'])
    else if size = 2 then Except.ok (sprintf_hex (value % 65536) ++ ['\n'])
    else if size = 4 then Except.ok (sprintf_hex (value % 4294967296) ++ ['\n'])
    else if size = 6 then Except.ok (sprintf_hex value ++ ['\n'])
    else if size = 8 then Except.ok (sprintf_hex value ++ ['\n'])
    else Except.error (-EIO_CODE)

/-- `rdreg_store` (master.c lines 455-476): parse `"%hhx:%hhx:%hhx"`,
-EINVAL unless exactly 3 conversions succeed, then issue
`switch_setup_get_reg(ds, page, reg, size)` — recorded as a call —
failing with -EIO when the driver rejects it.  No width validation is
performed here. -/
def rdreg_store (setup_get_reg : Nat → Nat → Nat → Bool) (buf : List Char) :
    Except Int Unit × List (Nat × Nat × Nat) :=
  match sscanf_hhx3 buf with
  | (cnt, page, reg, size) =>
    if cnt ≠ 3 then (Except.error (-EINVAL), [])
    else if setup_get_reg page reg size then (Except.ok (), [(page, reg, size)])
    else (Except.error (-EIO_CODE), [(page, reg, size)])

/-- `wrreg_store` (master.c lines 485-507): parse
`"%hhx:%hhx:%hhx:%llx"`, -EINVAL unless exactly 4 conversions succeed,
then issue `switch_set_reg(ds, page, reg, size, value)` — recorded as
a call — failing with -EIO when the driver rejects it. -/
def wrreg_store (set_reg : Nat → Nat → Nat → Nat → Bool) (buf : List Char) :
    Except Int Unit × List (Nat × Nat × Nat × Nat) :=
  match sscanf_hhx3_llx buf with
  | (cnt, page, reg, size, value) =>
    if cnt ≠ 4 then (Except.error (-EINVAL), [])
    else if set_reg page reg size value then (Except.ok (), [(page, reg, size, value)])
    else (Except.error (-EIO_CODE), [(page, reg, size, value)])

/-- `wrreg_show` (master.c lines 479-483): always -EPERM. -/
def wrreg_show : Except Int (List Char) := Except.error (-1)

/-! ### master.c : clock-short mutex toggle (lines 523-553) -/

/-- `spi_mutex_store` (master.c lines 523-553): the write length must
be exactly 2 (one character plus terminator), the parsed decimal must
be 0 or 1; on success the `datum_spi2_i2c3_clock_short` flag becomes
the parsed value.  Returns the result and the flag after the call. -/
def spi_mutex_store (clock_short : Bool) (buf : List Char) :
    Except Int Unit × Bool :=
  if buf.length ≠ 2 then (Except.error (-EINVAL), clock_short)
  else
    match sscanf_d buf with
    | (cnt, v) =>
      if cnt ≠ 1 then (Except.error (-EINVAL), clock_short)
      else if v ≠ 0 ∧ v ≠ 1 then (Except.error (-EINVAL), clock_short)
      else (Except.ok (), if v = 1 then true else false)

/-! ### master.c : tag protocol switching (lines 281-362)

Tag protocol drivers are identified by `Nat` ids; the state carries the
switch-tree active protocol (`cpu_dp->tag_ops`) and a per-protocol
module reference count. -/

structure TagState where
  active : Nat
  refcnt : Nat → Nat

/-- Modelled from the spec: `dsa_tag_driver_put` lives outside src/;
per spec section 3, releasing a protocol decrements the reference
count on its provider. -/
def dsa_tag_driver_put (p : Nat) (st : TagState) : TagState :=
  { st with refcnt := fun q => if q = p then st.refcnt q - 1 else st.refcnt q }

/-- Modelled from the spec: `dsa_find_tagger_by_name` lives outside
src/; per spec section 4.4 step 1-2, the lookup fails for an unknown
name and otherwise speculatively takes a reference on the found
protocol.  The lookup outcome is the `lookup` parameter. -/
def dsa_find_tagger_by_name (lookup : Option Nat) (st : TagState) :
    Option (Nat × TagState) :=
  match lookup with
  | none => none
  | some q =>
      some (q, { st with refcnt := fun p => if p = q then st.refcnt p + 1 else st.refcnt p })

/-- Modelled from the spec: `dsa_tree_change_tag_proto` lives outside
src/; per spec section 4.4 steps 3-5 and the comment at master.c line
314, the tree-wide apply either succeeds and installs the new protocol
as active, or fails and restores the old tagger (active unchanged).
Whether it fails is the `apply_fails` parameter. -/
def dsa_tree_change_tag_proto (apply_fails : Bool) (newp : Nat) (st : TagState) :
    Except Unit TagState :=
  if apply_fails then Except.error () else Except.ok { st with active := newp }

/-- `tagging_cpu_store` (master.c lines 291-326): look up the tagger by
name (reference speculatively taken), no-op when it is already active
(dropping the duplicate reference), otherwise run the tree-wide
change; on failure drop the new reference and propagate the error, on
success drop the old protocol reference. -/
def tagging_cpu_store (st : TagState) (lookup : Option Nat) (apply_fails : Bool) :
    Except Int Unit × TagState :=
  let old := st.active
  match dsa_find_tagger_by_name lookup st with
  | none => (Except.error (-ENOENT), st)
  | some (newp, st1) =>
    if newp = old then (Except.ok (), dsa_tag_driver_put old st1)
    else
      match dsa_tree_change_tag_proto apply_fails newp st1 with
      | Except.error _ => (Except.error (-EIO_CODE), dsa_tag_driver_put newp st1)
      | Except.ok st2 => (Except.ok (), dsa_tag_driver_put old st2)

/-- `tagging_imp_store` (master.c lines 343-361): look up the tagger by
name (reference taken), fail with -EOPNOTSUPP when the switch driver
lacks `change_tag_protocol`, otherwise call
`ds->ops->change_tag_protocol(ds, 8, proto)` with its return value
ignored and report success.  No path releases the reference taken by
the lookup. -/
def tagging_imp_store (st : TagState) (lookup : Option Nat)
    (has_change_tag_protocol : Bool) (driver_call_fails : Bool) :
    Except Int Unit × TagState :=
  match dsa_find_tagger_by_name lookup st with
  | none => (Except.error (-ENOENT), st)
  | some (newp, st1) =>
    if has_change_tag_protocol = false then (Except.error (-EOPNOTSUPP), st1)
    else (Except.ok (), st1)

/-! ### master.c : ioctl interception (lines 197-223) -/

def SIOCSHWTSTAMP : Nat := 0x89b0
def SIOCGHWTSTAMP : Nat := 0x89b1

/-- `dsa_master_ioctl` (master.c lines 197-223).  `hwtstamp_ports`
lists, for each port of the switch tree, the value of
`dsa_port_supports_hwtstamp(dp, ifr)` for this request;
`ndo_eth_ioctl` is the master device native handler result when the
master has one.  Timestamping requests are rejected with -EBUSY when
any tree port supports hardware timestamping; everything else falls
through to the native handler, defaulting to -EOPNOTSUPP. -/
def dsa_master_ioctl (cmd : Nat) (hwtstamp_ports : List Bool)
    (ndo_eth_ioctl : Option Int) : Int :=
  if (cmd = SIOCGHWTSTAMP ∨ cmd = SIOCSHWTSTAMP)
      ∧ hwtstamp_ports.any (fun b => b) then -EBUSY
  else
    match ndo_eth_ioctl with
    | some r => r
    | none => -EOPNOTSUPP

/-! ### master.c : ethtool string prefixing (lines 149-195) -/

def ETH_GSTRING_LEN : Nat := 32

/-- Fuel-bounded most-significant-first decimal rendering loop. -/
def decLoop : Nat → Nat → List Char
  | 0, _ => []
  | _ + 1, 0 => []
  | fuel + 1, n + 1 => decLoop fuel ((n + 1) / 10) ++ [Char.ofNat (48 + (n + 1) % 10)]

/-- Model of sprintf `%d` for a nonnegative value. -/
def sprintf_dec (n : Nat) : List Char :=
  if n = 0 then ['0'] else decLoop n n

/-- Model of `%.2d`: zero-pad to at least two digits. -/
def pad2 (n : Nat) : List Char :=
  if n < 10 then '0' :: sprintf_dec n else sprintf_dec n

/-- The prefix buffer built at master.c lines 161-163:
`snprintf(pfx, sizeof(pfx), "p%.2d", port)` writes at most 3
characters of `p` followed by the zero-padded port index, and
`pfx[3] = '_'` replaces the terminator. -/
def mk_port_pfx (port : Nat) : List Char :=
  (('p' :: pad2 port).take 3) ++ ['_']

/-- The mangling loop at master.c lines 189-193: for each of `count`
fixed-width blocks,
`memmove(ndata + i*len + sizeof(pfx), ndata + i*len, len - sizeof(pfx))`
shifts the first `len - 4` bytes of the block to offset 4 and
`memcpy(ndata + i*len, pfx, sizeof(pfx))` writes the prefix over the
first 4 bytes, so block `i` becomes
`pfx ++ (old block).take (len - 4)`. -/
def mangle_strings (pfx : List Char) (len : Nat) : Nat → List Char → List Char
  | 0, bs => bs
  | count + 1, bs =>
      (pfx ++ bs.take (len - pfx.length)) ++ mangle_strings pfx len count (bs.drop len)

/-- `dsa_master_get_strings` (master.c lines 149-195), restricted to
the buffer contents: the master segment (`mcount * len` bytes written
by the master own get_strings) is followed by the switch-port strings,
which are rewritten in place by the mangling loop.  `count` is
`ds->ops->get_sset_count(ds, port, stringset)`. -/
def dsa_master_get_strings (port : Nat) (master_seg : List Char)
    (switch_seg : List Char) (count : Nat) : List Char :=
  master_seg ++ mangle_strings (mk_port_pfx port) ETH_GSTRING_LEN count switch_seg

/-! ## Theorems -/

/-- Helper: on byte values, masking the top three bits and shifting
right by five is division by 32. -/
theorem frac_top3 (f : Nat) (h : f < 256) : (f &&& 0xE0) >>> 5 = f / 32 := by
  have hall : ∀ g : Fin 256, ((g : Nat) &&& 0xE0) >>> 5 = (g : Nat) / 32 := by decide
  exact hall ⟨f, h⟩

/-- Claim C1: the claim asserts `temp_from_reg (temp_to_reg V) 0 = V` for
every multiple V of 1000 milli-degrees; the code computes
`(V + 64) / 1000` where the inverse of `temp_from_reg` requires
`V / 1000 + 64`, so the written register byte lacks the 64 offset and
every round trip through a threshold register comes back 64000
milli-degrees low.  Evaluation at the multiple V = 25000: the stored
byte is 25 and the value read back is -39000, not 25000. -/
theorem temp_threshold_roundtrip_code_eval :
    (25000 : Int) % 1000 = 0
      ∧ temp_to_reg 25000 = 25
      ∧ temp_store_byte 25000 = 25
      ∧ temp_from_reg (temp_to_reg 25000) 0 = -39000
      ∧ threshold_read_back 25000 = -39000 := by
  exact ⟨by decide, by decide, by decide, by decide, by decide⟩

/-- Claim C5 counterexample: the claim asserts that when the device is
runtime-suspended the release path performs no settle delay at all,
but `spi_unlock` still performs the 1 ms `msleep` in that case. -/
theorem spi_unlock_suspended_counterexample :
    BusEvent.msleep 1 ∈ spi_unlock true := by decide

/-- Claim C5 amended: when the device is runtime-suspended, `spi_unlock`
skips only the 100-200 us jitter but still performs the fixed 1 ms
delay before releasing the mutex; otherwise it performs both delays
and then releases. -/
theorem spi_unlock_delay_trace :
    spi_unlock true = [BusEvent.msleep 1, BusEvent.mutex_unlock]
      ∧ spi_unlock false
          = [BusEvent.usleep_range 100 200, BusEvent.msleep 1, BusEvent.mutex_unlock] :=
  ⟨rfl, rfl⟩

/-- Claim C6: the reading shown for each channel decodes the cached raw byte
and fraction byte as `(raw - 64) * 1000 + (top 3 bits of fraction) * 125`
milli-degrees, with fraction byte 0 for every index other than the two
inputs (thresholds have no fraction register); at raw = 89 and
fraction = 0x20 the decoded reading is exactly 25125. -/
theorem temp_show_decoding :
    ∀ (data : TempIndex → Nat),
      data TempIndex.t_input1_fraction < 256 →
      data TempIndex.t_input2_fraction < 256 →
      (temp_show data TempIndex.t_input1
          = ((data TempIndex.t_input1 : Int) - 64) * 1000
            + ((data TempIndex.t_input1_fraction / 32 : Nat) : Int) * 125)
        ∧ (temp_show data TempIndex.t_input2
            = ((data TempIndex.t_input2 : Int) - 64) * 1000
              + ((data TempIndex.t_input2_fraction / 32 : Nat) : Int) * 125)
        ∧ (∀ idx : TempIndex, idx ≠ TempIndex.t_input1 → idx ≠ TempIndex.t_input2 →
            temp_show data idx = ((data idx : Int) - 64) * 1000)
        ∧ temp_from_reg 89 0x20 = 25125 := by
  intro data h1 h2
  refine ⟨?_, ?_, ?_, by decide⟩
  · simp [temp_show, temp_from_reg, frac_top3 _ h1]
  · simp [temp_show, temp_from_reg, frac_top3 _ h2]
  · intro idx hi1 hi2
    cases idx <;> simp_all [temp_show, temp_from_reg]

/-- Claim C6 witness: a concrete register cache with raw local temperature 89
and fraction byte 0x20 decodes to 25125 milli-degrees. -/
theorem temp_show_decoding_witness :
    temp_show
        (fun i => if i = TempIndex.t_input1 then 89
          else if i = TempIndex.t_input1_fraction then 32 else 0)
        TempIndex.t_input1 = 25125 := by
  have h := temp_show_decoding
    (fun i => if i = TempIndex.t_input1 then 89
      else if i = TempIndex.t_input1_fraction then 32 else 0)
    (by decide) (by decide)
  rw [h.1]
  decide

/-- Claim C2: the tagging_cpu write is atomic under failure: when the
tree-wide apply fails the active protocol and every reference count
are as before the call (the speculative reference taken for the new
protocol has been released); on success the new protocol is active
holding the lookup reference and the old protocol has released its
active reference; the no-op path (new = active) changes nothing; and
on every path the active protocol still holds at least one
reference. -/
theorem tagging_cpu_store_atomic :
    ∀ (st : TagState) (lookup : Option Nat) (apply_fails : Bool),
      1 ≤ st.refcnt st.active →
      (∀ q, lookup = some q → q ≠ st.active → apply_fails = true →
          ((tagging_cpu_store st lookup apply_fails).1 = Except.error (-EIO_CODE)
            ∧ (tagging_cpu_store st lookup apply_fails).2.active = st.active
            ∧ ∀ p, (tagging_cpu_store st lookup apply_fails).2.refcnt p = st.refcnt p))
        ∧ (∀ q, lookup = some q → q ≠ st.active → apply_fails = false →
            ((tagging_cpu_store st lookup apply_fails).1 = Except.ok ()
              ∧ (tagging_cpu_store st lookup apply_fails).2.active = q
              ∧ (tagging_cpu_store st lookup apply_fails).2.refcnt q = st.refcnt q + 1
              ∧ (tagging_cpu_store st lookup apply_fails).2.refcnt st.active
                  = st.refcnt st.active - 1))
        ∧ (lookup = some st.active →
            ((tagging_cpu_store st lookup apply_fails).2.active = st.active
              ∧ ∀ p, (tagging_cpu_store st lookup apply_fails).2.refcnt p = st.refcnt p))
        ∧ 1 ≤ (tagging_cpu_store st lookup apply_fails).2.refcnt
                (tagging_cpu_store st lookup apply_fails).2.active := by
  intro st lookup apply_fails hact
  cases lookup with
  | none =>
      refine ⟨by simp, by simp, by simp [tagging_cpu_store, dsa_find_tagger_by_name], ?_⟩
      simpa [tagging_cpu_store, dsa_find_tagger_by_name] using hact
  | some q =>
      by_cases hq : q = st.active
      · subst hq
        refine ⟨?_, ?_, ?_, ?_⟩
        · intro q' hq' hne _
          injection hq' with h
          exact absurd h.symm hne
        · intro q' hq' hne _
          injection hq' with h
          exact absurd h.symm hne
        · intro _
          constructor
          · simp [tagging_cpu_store, dsa_find_tagger_by_name, dsa_tag_driver_put]
          · intro p
            by_cases hp : p = st.active <;>
              simp [tagging_cpu_store, dsa_find_tagger_by_name, dsa_tag_driver_put, hp]
        · simpa [tagging_cpu_store, dsa_find_tagger_by_name, dsa_tag_driver_put] using hact
      · cases apply_fails with
        | true =>
            refine ⟨?_, ?_, ?_, ?_⟩
            · intro q' hq' hne _
              injection hq' with h
              subst h
              refine ⟨?_, ?_, ?_⟩
              · simp [tagging_cpu_store, dsa_find_tagger_by_name,
                  dsa_tree_change_tag_proto, dsa_tag_driver_put, hq]
              · simp [tagging_cpu_store, dsa_find_tagger_by_name,
                  dsa_tree_change_tag_proto, dsa_tag_driver_put, hq]
              · intro p
                by_cases hp : p = q <;>
                  simp [tagging_cpu_store, dsa_find_tagger_by_name,
                    dsa_tree_change_tag_proto, dsa_tag_driver_put, hq, hp]
            · intro q' hq' hne hf
              exact absurd hf (by simp)
            · intro hq'
              injection hq' with h
              exact absurd h hq
            · have h1 : (tagging_cpu_store st (some q) true).2.refcnt st.active
                  = st.refcnt st.active := by
                simp [tagging_cpu_store, dsa_find_tagger_by_name,
                  dsa_tree_change_tag_proto, dsa_tag_driver_put, hq, Ne.symm hq]
              have h2 : (tagging_cpu_store st (some q) true).2.active = st.active := by
                simp [tagging_cpu_store, dsa_find_tagger_by_name,
                  dsa_tree_change_tag_proto, dsa_tag_driver_put, hq]
              rw [h2, h1]
              exact hact
        | false =>
            refine ⟨?_, ?_, ?_, ?_⟩
            · intro q' hq' hne hf
              exact absurd hf (by simp)
            · intro q' hq' hne _
              injection hq' with h
              subst h
              refine ⟨?_, ?_, ?_, ?_⟩
              · simp [tagging_cpu_store, dsa_find_tagger_by_name,
                  dsa_tree_change_tag_proto, dsa_tag_driver_put, hq]
              · simp [tagging_cpu_store, dsa_find_tagger_by_name,
                  dsa_tree_change_tag_proto, dsa_tag_driver_put, hq]
              · simp [tagging_cpu_store, dsa_find_tagger_by_name,
                  dsa_tree_change_tag_proto, dsa_tag_driver_put, hq, Ne.symm hq]
              · simp [tagging_cpu_store, dsa_find_tagger_by_name,
                  dsa_tree_change_tag_proto, dsa_tag_driver_put, hq, Ne.symm hq]
            · intro hq'
              injection hq' with h
              exact absurd h hq
            · have h2 : (tagging_cpu_store st (some q) false).2.active = q := by
                simp [tagging_cpu_store, dsa_find_tagger_by_name,
                  dsa_tree_change_tag_proto, dsa_tag_driver_put, hq]
              have h1 : (tagging_cpu_store st (some q) false).2.refcnt q
                  = st.refcnt q + 1 := by
                simp [tagging_cpu_store, dsa_find_tagger_by_name,
                  dsa_tree_change_tag_proto, dsa_tag_driver_put, hq, Ne.symm hq]
              rw [h2, h1]
              exact Nat.le_add_left 1 _

/-- Claim C2 witness: concrete failing change from active protocol 0 to
protocol 1 with reference counts (1, 0): the call fails, protocol 0
stays active and the count of protocol 1 is back to 0. -/
theorem tagging_cpu_store_atomic_witness :
    (tagging_cpu_store ⟨0, fun p => if p = 0 then 1 else 0⟩ (some 1) true).1
        = Except.error (-EIO_CODE)
      ∧ (tagging_cpu_store ⟨0, fun p => if p = 0 then 1 else 0⟩ (some 1) true).2.active = 0
      ∧ (tagging_cpu_store ⟨0, fun p => if p = 0 then 1 else 0⟩ (some 1) true).2.refcnt 1
        = 0 := by
  have h := tagging_cpu_store_atomic ⟨0, fun p => if p = 0 then 1 else 0⟩ (some 1) true
    (by decide)
  obtain ⟨h1, -, -, -⟩ := h
  have h2 := h1 1 rfl (by decide) rfl
  exact ⟨h2.1, h2.2.1, (h2.2.2 1).trans (by decide)⟩

/-- Claim C10: whenever the tagger name resolves and the switch driver
implements change_tag_protocol, the tagging_imp write reports success
regardless of whether the driver call itself fails, does not change
which protocol is active for the tree, and never releases the
tagger-driver reference acquired by the name lookup (its count stays
incremented). -/
theorem tagging_imp_store_leaky_success :
    ∀ (st : TagState) (q : Nat) (driver_call_fails : Bool),
      (tagging_imp_store st (some q) true driver_call_fails).1 = Except.ok ()
        ∧ (tagging_imp_store st (some q) true driver_call_fails).2.refcnt q
            = st.refcnt q + 1
        ∧ (∀ p, p ≠ q →
            (tagging_imp_store st (some q) true driver_call_fails).2.refcnt p
              = st.refcnt p)
        ∧ (tagging_imp_store st (some q) true driver_call_fails).2.active = st.active := by
  intro st q dcf
  refine ⟨?_, ?_, ?_, ?_⟩
  · simp [tagging_imp_store, dsa_find_tagger_by_name]
  · simp [tagging_imp_store, dsa_find_tagger_by_name]
  · intro p hp
    simp [tagging_imp_store, dsa_find_tagger_by_name, hp]
  · simp [tagging_imp_store, dsa_find_tagger_by_name]

/-- Claim C10 witness: with no references held and active protocol 0, a
tagging_imp write resolving to protocol 1 with a failing driver call
still succeeds and leaves the lookup reference on protocol 1. -/
theorem tagging_imp_store_leaky_success_witness :
    (tagging_imp_store ⟨0, fun p => 0⟩ (some 1) true true).1 = Except.ok ()
      ∧ (tagging_imp_store ⟨0, fun p => 0⟩ (some 1) true true).2.refcnt 1 = 1 := by
  have h := tagging_imp_store_leaky_success ⟨0, fun p => 0⟩ 1 true
  exact ⟨h.1, h.2.1.trans (by decide)⟩

/-- Claim C8: a hardware-timestamping get/set request on the master is
rejected with -EBUSY as soon as one port of the switch tree supports
hardware timestamping for that request; otherwise it is forwarded to
the master native handler, defaulting to -EOPNOTSUPP when the master
has none, and every non-timestamping request is always forwarded. -/
theorem dsa_master_ioctl_intercept :
    ∀ (cmd : Nat) (hwtstamp_ports : List Bool) (ndo : Option Int),
      ((cmd = SIOCGHWTSTAMP ∨ cmd = SIOCSHWTSTAMP) →
          (∃ b ∈ hwtstamp_ports, b = true) →
          dsa_master_ioctl cmd hwtstamp_ports ndo = -EBUSY)
        ∧ ((cmd = SIOCGHWTSTAMP ∨ cmd = SIOCSHWTSTAMP) →
            (∀ b ∈ hwtstamp_ports, b = false) →
            dsa_master_ioctl cmd hwtstamp_ports ndo
              = (match ndo with | some r => r | none => -EOPNOTSUPP))
        ∧ ((cmd ≠ SIOCGHWTSTAMP ∧ cmd ≠ SIOCSHWTSTAMP) →
            dsa_master_ioctl cmd hwtstamp_ports ndo
              = (match ndo with | some r => r | none => -EOPNOTSUPP)) := by
  intro cmd ports ndo
  refine ⟨?_, ?_, ?_⟩
  · intro hc hex
    have hany : ports.any (fun b => b) = true := by
      rcases hex with ⟨b, hb, hbt⟩
      exact List.any_eq_true.mpr ⟨b, hb, hbt⟩
    simp [dsa_master_ioctl, hc, hany]
  · intro hc hall
    have hany : ports.any (fun b => b) = false := by
      rw [List.any_eq_false]
      intro b hb
      simp [hall b hb]
    simp [dsa_master_ioctl, hany]
  · intro hn
    simp [dsa_master_ioctl, hn.1, hn.2]

/-- Claim C8 witness: a SIOCGHWTSTAMP request with one timestamp-capable
port is rejected -EBUSY, and a non-timestamping request (cmd 0) is
forwarded to a native handler returning 7. -/
theorem dsa_master_ioctl_intercept_witness :
    dsa_master_ioctl SIOCGHWTSTAMP [false, true] (some 0) = -EBUSY
      ∧ dsa_master_ioctl 0 [false, true] (some 7) = 7 := by
  refine ⟨?_, ?_⟩
  · exact (dsa_master_ioctl_intercept SIOCGHWTSTAMP [false, true] (some 0)).1
      (Or.inl rfl) ⟨true, by simp, rfl⟩
  · exact (dsa_master_ioctl_intercept 0 [false, true] (some 7)).2.2 (by decide)

/-- Helper: the pvlan search loop succeeds and invokes the setter once
when the list contains a matching used port and every matching used
port supports the pvlan operations. -/
theorem pvlan_find_and_set_found :
    ∀ (ports : List DsaPort) (index : Int) (value : Nat),
      (∃ dp ∈ ports, dp.index = index ∧ dp.used = true) →
      (∀ dp ∈ ports, dp.index = index → dp.used = true → dp.has_get_pvlan = true) →
      pvlan_find_and_set ports index value = (Except.ok (), [(index, value)]) := by
  intro ports index value hex hall
  induction ports with
  | nil => simp at hex
  | cons dp rest ih =>
      by_cases hm : dp.index = index ∧ dp.used = true
      · have hop := hall dp (by simp) hm.1 hm.2
        simp [pvlan_find_and_set, hm, hop]
      · rw [pvlan_find_and_set, if_neg hm]
        apply ih
        · rcases hex with ⟨dp', hdp', hprop⟩
          rcases List.mem_cons.mp hdp' with h | h
          · exact absurd (h ▸ hprop) hm
          · exact ⟨dp', h, hprop⟩
        · intro dp' h' h1 h2
          exact hall dp' (List.mem_cons_of_mem _ h') h1 h2

/-- Helper: the pvlan search loop fails with -EINVAL and invokes
nothing when no port has the requested index. -/
theorem pvlan_find_and_set_no_match :
    ∀ (ports : List DsaPort) (index : Int) (value : Nat),
      (∀ dp ∈ ports, dp.index ≠ index) →
      pvlan_find_and_set ports index value = (Except.error (-EINVAL), []) := by
  intro ports index value hall
  induction ports with
  | nil => rfl
  | cons dp rest ih =>
      rw [pvlan_find_and_set, if_neg]
      · exact ih (fun dp' h' => hall dp' (List.mem_cons_of_mem _ h'))
      · intro hc
        exact hall dp (by simp) hc.1

/-- Claim C9 counterexample: the claim asserts that on every tree containing
a used port of index 3 the write "3:0a5" invokes the setter and
succeeds, but when the driver of that port lacks the per-port VLAN
operations the code returns -EOPNOTSUPP and invokes nothing. -/
theorem pvlan_store_unsupported_counterexample :
    pvlan_store [{ index := 3, used := true, has_get_pvlan := false }] ("3:0a5".toList)
      = (Except.error (-EOPNOTSUPP), []) := rfl

/-- Claim C9 amended: provided every matching used port supports the pvlan
driver operations, a pvlan write of "3:0a5" on a tree with a used port
of index 3 invokes the per-port VLAN setter with index 3 and value
0x0A5 and succeeds; a write of "99:0a5" on a tree with no port of
index 99 fails with -EINVAL and invokes nothing. -/
theorem pvlan_store_scenarios :
    ∀ (ports : List DsaPort),
      ((∃ dp ∈ ports, dp.index = 3 ∧ dp.used = true) →
        (∀ dp ∈ ports, dp.index = 3 → dp.used = true → dp.has_get_pvlan = true) →
        pvlan_store ports ("3:0a5".toList) = (Except.ok (), [(3, 0xA5)]))
      ∧ ((∀ dp ∈ ports, dp.index ≠ 99) →
        pvlan_store ports ("99:0a5".toList) = (Except.error (-EINVAL), [])) := by
  intro ports
  constructor
  · intro hex hall
    have hp : sscanf_pvlan ("3:0a5".toList) = (2, 3, 165) := by decide
    unfold pvlan_store
    rw [hp]
    simpa using pvlan_find_and_set_found ports 3 165 hex hall
  · intro hall
    have hp : sscanf_pvlan ("99:0a5".toList) = (2, 99, 165) := by decide
    unfold pvlan_store
    rw [hp]
    simpa using pvlan_find_and_set_no_match ports 99 165 hall

/-- Claim C9 witness: concrete one-port trees for both halves of the
scenario. -/
theorem pvlan_store_scenarios_witness :
    pvlan_store [{ index := 3, used := true, has_get_pvlan := true }] ("3:0a5".toList)
        = (Except.ok (), [(3, 165)])
      ∧ pvlan_store [{ index := 3, used := true, has_get_pvlan := true }] ("99:0a5".toList)
        = (Except.error (-EINVAL), []) := by
  have h := pvlan_store_scenarios [{ index := 3, used := true, has_get_pvlan := true }]
  refine ⟨h.1 ⟨{ index := 3, used := true, has_get_pvlan := true }, by simp, rfl, rfl⟩ ?_,
    h.2 ?_⟩
  · intro dp hdp h1 h2
    simp at hdp
    rw [hdp]
  · intro dp hdp
    simp at hdp
    rw [hdp]
    decide

/-- Claim C3 counterexample: the claim asserts that a raw-register prepare
with a width outside {1,2,4,6,8} fails with -EINVAL and leaves the
hardware untouched, but `rdreg_store` performs no width validation: a
write "0:0:3" (width 3) issues the setup call to the switch driver and
succeeds whenever the driver accepts it. -/
theorem rdreg_store_width_not_validated :
    rdreg_store (fun page reg size => true) ("0:0:3".toList) = (Except.ok (), [(0, 0, 3)])
      ∧ ((3 : Nat) ≠ 1 ∧ (3 : Nat) ≠ 2 ∧ (3 : Nat) ≠ 4 ∧ (3 : Nat) ≠ 6 ∧ (3 : Nat) ≠ 8) :=
  ⟨rfl, by decide⟩

/-- Claim C3 amended: a wrong token count for the pvlan, raw-register
prepare and raw-register write formats, and a clock-short write whose
length is not exactly 2, fail with -EINVAL leaving all state untouched
and issuing no hardware-facing call; the width of a raw-register
prepare or write, however, is not validated: a well-formed triple
(prepare) or quadruple (write) is always forwarded to the switch
driver, the operation failing only with -EIO when the driver rejects
it. -/
theorem malformed_store_rejection :
    (∀ (ports : List DsaPort) (buf : List Char),
        (sscanf_pvlan buf).1 ≠ 2 → pvlan_store ports buf = (Except.error (-EINVAL), []))
      ∧ (∀ (drv : Nat → Nat → Nat → Bool) (buf : List Char),
          (sscanf_hhx3 buf).1 ≠ 3 → rdreg_store drv buf = (Except.error (-EINVAL), []))
      ∧ (∀ (drv : Nat → Nat → Nat → Nat → Bool) (buf : List Char),
          (sscanf_hhx3_llx buf).1 ≠ 4 → wrreg_store drv buf = (Except.error (-EINVAL), []))
      ∧ (∀ (flag : Bool) (buf : List Char),
          buf.length ≠ 2 → spi_mutex_store flag buf = (Except.error (-EINVAL), flag))
      ∧ (∀ (drv : Nat → Nat → Nat → Bool) (buf : List Char) (page reg size : Nat),
          sscanf_hhx3 buf = (3, page, reg, size) →
          rdreg_store drv buf
            = if drv page reg size then (Except.ok (), [(page, reg, size)])
              else (Except.error (-EIO_CODE), [(page, reg, size)]))
      ∧ (∀ (drv : Nat → Nat → Nat → Nat → Bool) (buf : List Char)
            (page reg size value : Nat),
          sscanf_hhx3_llx buf = (4, page, reg, size, value) →
          wrreg_store drv buf
            = if drv page reg size value then (Except.ok (), [(page, reg, size, value)])
              else (Except.error (-EIO_CODE), [(page, reg, size, value)])) := by
  refine ⟨?_, ?_, ?_, ?_, ?_, ?_⟩
  · intro ports buf h
    unfold pvlan_store
    rcases hp : sscanf_pvlan buf with ⟨cnt, idx, v⟩
    rw [hp] at h
    simp at h
    simp [h]
  · intro drv buf h
    unfold rdreg_store
    rcases hp : sscanf_hhx3 buf with ⟨cnt, page, reg, size⟩
    rw [hp] at h
    simp at h
    simp [h]
  · intro drv buf h
    unfold wrreg_store
    rcases hp : sscanf_hhx3_llx buf with ⟨cnt, page, reg, size, v⟩
    rw [hp] at h
    simp at h
    simp [h]
  · intro flag buf h
    unfold spi_mutex_store
    rw [if_pos h]
  · intro drv buf page reg size h
    unfold rdreg_store
    rw [h]
    simp
  · intro drv buf page reg size value h
    unfold wrreg_store
    rw [h]
    simp

/-- Claim C3 witness: a garbage pvlan write and a three-byte clock-short
write are both rejected with -EINVAL and change nothing, while a
raw-register write of width 3 is forwarded to an accepting driver and
succeeds. -/
theorem malformed_store_rejection_witness :
    pvlan_store [] ("zz".toList) = (Except.error (-EINVAL), [])
      ∧ spi_mutex_store false ("123".toList) = (Except.error (-EINVAL), false)
      ∧ wrreg_store (fun page reg size value => true) ("0:0:3:ff".toList)
          = (Except.ok (), [(0, 0, 3, 255)]) := by
  refine ⟨malformed_store_rejection.1 [] _ (by decide),
    malformed_store_rejection.2.2.2.1 false _ (by decide), ?_⟩
  have h := malformed_store_rejection.2.2.2.2.2 (fun page reg size value => true)
    ("0:0:3:ff".toList) 0 0 3 255 (by decide)
  simpa using h

/-- Helper: the hex rendering loop emits at most k digits for a value
below 16 to the k. -/
theorem hexLoop_length_le :
    ∀ (fuel n k : Nat), n < 16 ^ k → (hexLoop fuel n).length ≤ k := by
  intro fuel
  induction fuel with
  | zero => intro n k _; simp [hexLoop]
  | succ fuel ih =>
      intro n k h
      cases n with
      | zero => simp [hexLoop]
      | succ m =>
          cases k with
          | zero => simp at h
          | succ k' =>
              have hdiv : (m + 1) / 16 < 16 ^ k' := by
                rw [Nat.div_lt_iff_lt_mul (by norm_num)]
                calc m + 1 < 16 ^ (k' + 1) := h
                  _ = 16 ^ k' * 16 := by ring
              simpa [hexLoop] using Nat.succ_le_succ (ih ((m + 1) / 16) k' hdiv)

/-- Helper: printf hex output is between 1 and k digits for a value
below 16 to the k (k at least 1). -/
theorem sprintf_hex_length :
    ∀ (n k : Nat), 1 ≤ k → n < 16 ^ k →
      1 ≤ (sprintf_hex n).length ∧ (sprintf_hex n).length ≤ k := by
  intro n k hk h
  by_cases hn : n = 0
  · subst hn
    simpa [sprintf_hex] using hk
  · constructor
    · rcases Nat.exists_eq_succ_of_ne_zero hn with ⟨m, rfl⟩
      simp [sprintf_hex, hexLoop]
    · simpa [sprintf_hex, hn] using hexLoop_length_le n n k h

/-- Claim C4 counterexample: the claim asserts exactly 2 times width hex
digits, but the code prints with no leading zeros: a width-1 read of
value 5 prints the single digit 5, not 05. -/
theorem rdreg_show_digit_count_counterexample :
    rdreg_show (some (1, 5)) = Except.ok (sprintf_hex 5 ++ ['\n'])
      ∧ (sprintf_hex 5).length = 1
      ∧ (1 : Nat) ≠ 2 * 1 :=
  ⟨rfl, rfl, by decide⟩

/-- Claim C4 amended: for every driver-returned value (a u64) and width in
{1,2,4,6,8}, the read formats the value truncated to the width (widths
6 and 8 both print the full 64-bit value) in lowercase hex with no
leading zeros, hence between 1 and 2 times width digits (16 for width
6), followed by a newline; any other width fails with -EIO. -/
theorem rdreg_show_format :
    ∀ (value : Nat), value < 2 ^ 64 →
      (rdreg_show (some (1, value)) = Except.ok (sprintf_hex (value % 256) ++ ['\n'])
        ∧ 1 ≤ (sprintf_hex (value % 256)).length
        ∧ (sprintf_hex (value % 256)).length ≤ 2)
      ∧ (rdreg_show (some (2, value)) = Except.ok (sprintf_hex (value % 65536) ++ ['\n'])
        ∧ 1 ≤ (sprintf_hex (value % 65536)).length
        ∧ (sprintf_hex (value % 65536)).length ≤ 4)
      ∧ (rdreg_show (some (4, value)) = Except.ok (sprintf_hex (value % 4294967296) ++ ['\n'])
        ∧ 1 ≤ (sprintf_hex (value % 4294967296)).length
        ∧ (sprintf_hex (value % 4294967296)).length ≤ 8)
      ∧ (rdreg_show (some (6, value)) = Except.ok (sprintf_hex value ++ ['\n'])
        ∧ 1 ≤ (sprintf_hex value).length
        ∧ (sprintf_hex value).length ≤ 16)
      ∧ (rdreg_show (some (8, value)) = Except.ok (sprintf_hex value ++ ['\n'])
        ∧ 1 ≤ (sprintf_hex value).length
        ∧ (sprintf_hex value).length ≤ 16)
      ∧ (∀ size : Nat, size ≠ 1 → size ≠ 2 → size ≠ 4 → size ≠ 6 → size ≠ 8 →
          rdreg_show (some (size, value)) = Except.error (-EIO_CODE)) := by
  intro value hv
  have h1 := sprintf_hex_length (value % 256) 2 (by norm_num)
    (lt_of_lt_of_le (Nat.mod_lt _ (by norm_num)) (by norm_num))
  have h2 := sprintf_hex_length (value % 65536) 4 (by norm_num)
    (lt_of_lt_of_le (Nat.mod_lt _ (by norm_num)) (by norm_num))
  have h4 := sprintf_hex_length (value % 4294967296) 8 (by norm_num)
    (lt_of_lt_of_le (Nat.mod_lt _ (by norm_num)) (by norm_num))
  have h8 := sprintf_hex_length value 16 (by norm_num)
    (lt_of_lt_of_le hv (by norm_num))
  refine ⟨⟨rfl, h1.1, h1.2⟩, ⟨rfl, h2.1, h2.2⟩, ⟨rfl, h4.1, h4.2⟩,
    ⟨rfl, h8.1, h8.2⟩, ⟨rfl, h8.1, h8.2⟩, ?_⟩
  intro size hs1 hs2 hs4 hs6 hs8
  simp [rdreg_show, hs1, hs2, hs4, hs6, hs8]

/-- Claim C4 witness: a width-2 read of the value 0xabc prints the three
digits abc within the 1..4 digit bound. -/
theorem rdreg_show_format_witness :
    rdreg_show (some (2, 2748)) = Except.ok (sprintf_hex (2748 % 65536) ++ ['\n'])
      ∧ (sprintf_hex (2748 % 65536)).length ≤ 4 := by
  have h := rdreg_show_format 2748 (by norm_num)
  exact ⟨h.2.1.1, h.2.1.2.2⟩

/-- Helper: for port indices 0..99 the constructed prefix is exactly
p, the zero-padded two-digit decimal index, and an underscore. -/
theorem mk_port_pfx_eq :
    ∀ (port : Nat), port ≤ 99 →
      mk_port_pfx port
        = ['p', Char.ofNat (48 + port / 10), Char.ofNat (48 + port % 10), '_'] := by
  have hall : ∀ p : Fin 100,
      mk_port_pfx p.val
        = ['p', Char.ofNat (48 + p.val / 10), Char.ofNat (48 + p.val % 10), '_'] := by
    decide
  intro port h
  exact hall ⟨port, Nat.lt_succ_of_le h⟩

/-- Helper: on a buffer made of count consecutive blocks of width len,
the mangling loop rewrites each block to the prefix followed by the
truncated original block. -/
theorem mangle_strings_flatten :
    ∀ (pfx : List Char) (len : Nat) (blocks : List (List Char)),
      (∀ b ∈ blocks, b.length = len) →
      mangle_strings pfx len blocks.length blocks.flatten
        = (blocks.map (fun b => pfx ++ b.take (len - pfx.length))).flatten := by
  intro pfx len blocks hall
  induction blocks with
  | nil => simp [mangle_strings]
  | cons b bs ih =>
      have hb : b.length = len := hall b (by simp)
      have h1 : (b ++ bs.flatten).take (len - pfx.length) = b.take (len - pfx.length) := by
        apply List.take_append_of_le_length
        rw [hb]
        omega
      have h2 : (b ++ bs.flatten).drop len = bs.flatten := by
        rw [← hb]
        exact List.drop_left b bs.flatten
      simp only [List.length_cons, List.flatten_cons, mangle_strings, h1, h2, List.map_cons]
      rw [ih (fun b' h' => hall b' (List.mem_cons_of_mem _ h'))]

/-- Claim C7: for every port index 0..99 and every set of switch-port
strings of the fixed width ETH_GSTRING_LEN, get_strings rewrites each
switch-port string into exactly the 4-byte prefix p, two-digit
zero-padded port index and underscore, followed by the original string
truncated to fit; each rewritten string keeps exactly its original
fixed width, and the master segment before them is unmodified. -/
theorem dsa_master_get_strings_prefixing :
    ∀ (port : Nat) (master_seg : List Char) (blocks : List (List Char)),
      port ≤ 99 →
      (∀ b ∈ blocks, b.length = ETH_GSTRING_LEN) →
      (dsa_master_get_strings port master_seg blocks.flatten blocks.length
          = master_seg
            ++ (blocks.map
                (fun b => mk_port_pfx port ++ b.take (ETH_GSTRING_LEN - 4))).flatten)
        ∧ mk_port_pfx port
            = ['p', Char.ofNat (48 + port / 10), Char.ofNat (48 + port % 10), '_']
        ∧ (∀ b ∈ blocks,
            (mk_port_pfx port ++ b.take (ETH_GSTRING_LEN - 4)).length = ETH_GSTRING_LEN)
        ∧ (dsa_master_get_strings port master_seg blocks.flatten blocks.length).take
              master_seg.length = master_seg := by
  intro port master_seg blocks hport hall
  have hpfx := mk_port_pfx_eq port hport
  have hlen4 : (mk_port_pfx port).length = 4 := by rw [hpfx]; rfl
  have hmain : dsa_master_get_strings port master_seg blocks.flatten blocks.length
      = master_seg
        ++ (blocks.map (fun b => mk_port_pfx port ++ b.take (ETH_GSTRING_LEN - 4))).flatten := by
    unfold dsa_master_get_strings
    rw [mangle_strings_flatten (mk_port_pfx port) ETH_GSTRING_LEN blocks hall, hlen4]
  refine ⟨hmain, hpfx, ?_, ?_⟩
  · intro b hb
    have hblen : b.length = ETH_GSTRING_LEN := hall b hb
    simp [List.length_append, List.length_take, hlen4, hblen]
    decide
  · rw [hmain]
    exact List.take_left master_seg _

/-- Claim C7 witness: port 3, a one-byte master segment and a single 32-byte
switch string: the output is the master byte followed by p03_ and the
first 28 original bytes, still 32 bytes wide. -/
theorem dsa_master_get_strings_prefixing_witness :
    dsa_master_get_strings 3 ['a'] (List.replicate 32 'x') 1
        = ['a'] ++ (['p', '0', '3', '_'] ++ List.replicate 28 'x')
      ∧ (['p', '0', '3', '_'] ++ List.replicate 28 'x').length = 32 := by
  have h := dsa_master_get_strings_prefixing 3 ['a'] [List.replicate 32 'x']
    (by decide) (by intro b hb; simp at hb; rw [hb]; rfl)
  have hpfx : mk_port_pfx 3 = ['p', '0', '3', '_'] := by decide
  constructor
  · have h1 := h.1
    simp only [List.flatten, List.map, List.length_cons, List.length_nil] at h1
    rw [hpfx] at h1
    simpa using h1
  · decide
